import Mathlib

/-!
Shallow embedding of the cart/order session engine of `src/main.py`
(Bazarino bot): the cart operations (`add_cart`, lines 557-599), the
stock-commit routine (`update_stock`, lines 619-647), the order
confirmation slice (`confirm_order`, lines 736-808), the discount check
(`load_discounts` / `ask_notes`, lines 373-395 and 717-734) and the
order conversation handlers (lines 653-734, wired at lines 1271-1284).

Machine integers are modelled as `Int` (sheet stock cells may parse to
any integer); quantities are `Nat` (carts only ever hold positive
quantities).  External effects (Google-Sheets writes, admin messages)
are made explicit as values.
-/

namespace Bazarino

/-- One row of the products worksheet, as `update_stock` sees it:
only `id` and `stock` are consulted. -/
structure Row where
  id : String
  stock : Int
deriving DecidableEq

/-- A cart line as built by `add_cart` (a dict with keys
`id, fa, it, price, weight, qty`).  Prices are in cents to stay exact. -/
structure CItem where
  id : String
  fa : String
  itName : String
  price : Int
  weight : String
  qty : Nat
deriving DecidableEq

/-- A product as stored in the products cache (`load_products`), restricted
to the fields `add_cart` reads. -/
structure Product where
  fa : String
  itName : String
  price : Int
  weight : String
  stock : Int
deriving DecidableEq

/-- External side effects performed by `add_cart` beyond mutating the
session cart: the low-stock admin alert (`alert_admin`) and the
append to the abandoned-carts worksheet. -/
inductive Eff where
  | lowStockAlert (pid : String) (stock : Int)
  | abandonedAppend (cart : List CItem)
deriving DecidableEq

/-- The fresh cart line `add_cart` appends:
`dict(id=pid, fa=.., it=.., price=.., weight=.., qty=qty)`. -/
def newItem (pid : String) (p : Product) (qty : Nat) : CItem :=
  ⟨pid, p.fa, p.itName, p.price, p.weight, qty⟩

/-- The predicate `i["id"] == pid` used to look a product up in the cart. -/
def hasId (pid : String) (i : CItem) : Bool := i.id = pid

/-- Python-dict lookup `prods[pid]` (keys are unique; first match). -/
def lookupProd (prods : List (String × Product)) (pid : String) : Option Product :=
  (prods.find? (fun e => e.1 = pid)).map (fun e => e.2)

/-- `next((i for i in cart if i["id"] == pid), None)` followed by
`cur["qty"] if cur else 0`. -/
def curQty (cart : List CItem) (pid : String) : Nat :=
  match cart.find? (hasId pid) with
  | some i => i.qty
  | none => 0

/-- `cur["qty"] += qty`: increment the first cart line whose id matches. -/
def mergeLine : List CItem → String → Nat → List CItem
  | [], _, _ => []
  | i :: is, pid, q =>
    if i.id = pid then { i with qty := i.qty + q } :: is
    else i :: mergeLine is pid q

/-- `add_cart` (src/main.py 557-599): returns `(success, new cart,
external effects)`.  Unknown product or `stock < cur_qty + qty` fail with
the cart untouched and no external call; on success the line is merged or
appended, `alert_admin(pid, stock - qty)` fires when `stock - qty` is at
or below the low-stock threshold, and the cart snapshot is appended to the
abandoned-carts worksheet. -/
def add_cart (th : Int) (prods : List (String × Product)) (cart : List CItem)
    (pid : String) (qty : Nat) : Bool × List CItem × List Eff :=
  match lookupProd prods pid with
  | none => (false, cart, [])
  | some p =>
    if p.stock < (curQty cart pid : Int) + (qty : Int) then (false, cart, [])
    else
      let cart' :=
        if (cart.find? (hasId pid)).isSome then mergeLine cart pid qty
        else cart ++ [newItem pid p qty]
      let effs :=
        (if p.stock - (qty : Int) ≤ th then [Eff.lowStockAlert pid (p.stock - qty)] else [])
          ++ [Eff.abandonedAppend cart']
      (true, cart', effs)

/-- Inner loop of `update_stock` for one cart line: scan the snapshot rows
(`enumerate(records, start=2)`); every row whose id matches gets
`new = row.stock - qty` written, unless `new < 0`, which aborts the whole
commit (`return False`) keeping the writes already performed.  Returns the
performed `(rowIndex, newValue)` writes and whether the scan survived. -/
def scanLine : List Row → Nat → String → Nat → List (Nat × Int) × Bool
  | [], _, _, _ => ([], true)
  | r :: rs, idx, pid, qty =>
    if r.id = pid then
      let new := r.stock - (qty : Int)
      if new < 0 then ([], false)
      else
        let rest := scanLine rs (idx + 1) pid qty
        ((idx, new) :: rest.1, rest.2)
    else scanLine rs (idx + 1) pid qty

/-- `update_stock` (src/main.py 619-647) relative to the snapshot taken by
its single `get_all_records()` call: processes cart lines in order, each
line scanning the snapshot; a failed line aborts with `False`, keeping all
writes performed so far.  The same written values also overwrite the local
cache entries. -/
def update_stock (records : List Row) : List CItem → List (Nat × Int) × Bool
  | [] => ([], true)
  | it :: rest =>
    let ws := scanLine records 2 it.id it.qty
    if ws.2 then
      let tail := update_stock records rest
      (ws.1 ++ tail.1, tail.2)
    else (ws.1, false)

/-- Apply one `update_cell(idx, 10, v)` to the live worksheet: row `idx`
is the `(idx - 2)`-th record. -/
def setStock : List Row → Nat → Int → List Row
  | [], _, _ => []
  | r :: rs, 0, v => { r with stock := v } :: rs
  | r :: rs, n + 1, v => r :: setStock rs n v

/-- Apply a list of cell writes to the live worksheet in order. -/
def applyWrites (store : List Row) : List (Nat × Int) → List Row
  | [] => store
  | w :: ws => applyWrites (setStock store (w.1 - 2) w.2) ws

/-!  Interleaving model for concurrent `update_stock` calls.  The only
interactions a session has with the shared worksheet are its initial
`get_all_records()` (a read of the whole store) and the `update_cell`
writes, whose values depend only on that snapshot.  A session is therefore
a snapshot plus a pending cart; a scheduler decides when each session
reads and when its writes land. -/

/-- One chat session racing to commit its cart. -/
structure Sess where
  cart : List CItem
  snap : Option (List Row)
  res : Option Bool
deriving DecidableEq

/-- A fresh session about to call `update_stock`. -/
def mkSess (cart : List CItem) : Sess := ⟨cart, none, none⟩

/-- The two kinds of shared-store interactions a committing session has. -/
inductive Op where
  | read
  | write
deriving DecidableEq

/-- One step of one session: `read` takes the `get_all_records()` snapshot
of the current store; `write` runs the rest of `update_stock` against the
snapshot, emitting its cell writes (which do not consult the live store). -/
def stepSess (store : List Row) (s : Sess) : Op → Sess × List (Nat × Int)
  | Op.read => ({ s with snap := some store }, [])
  | Op.write =>
    match s.snap, s.res with
    | some snap, none =>
      let r := update_stock snap s.cart
      ({ s with res := some r.2 }, r.1)
    | _, _ => (s, [])

/-- Run a schedule (a list of `(session index, operation)`) over the shared
store and the sessions. -/
def runSched (store : List Row) (ss : List Sess) : List (Nat × Op) → List Row × List Sess
  | [] => (store, ss)
  | ev :: rest =>
    match ss[ev.1]? with
    | none => runSched store ss rest
    | some s =>
      let r := stepSess store s ev.2
      runSched (applyWrites store r.2) (ss.set ev.1 r.1) rest

/-- Total quantity successfully committed: each session whose
`update_stock` returned `True` decremented its full cart quantity from the
stock cells. -/
def committedQty (ss : List Sess) : Nat :=
  (ss.map (fun s => if s.res = some true then (s.cart.map (fun i => i.qty)).sum else 0)).sum

/-- Cart line on product `"X"` with quantity `q` (metadata as `add_cart`
would fill it in). -/
def xItem (q : Nat) : CItem := ⟨"X", "x", "x", 100, "1kg", q⟩

/-!  `confirm_order` (src/main.py 736-808), the slice downstream of the
notes input: empty cart ends the conversation; a failed `update_stock`
replies with the generic `STOCK_EMPTY` message, records no order rows and
clears the whole `user_data` (cart included); success appends one
`"preparing"` row per cart line to the orders worksheet and likewise
clears `user_data`. -/

/-- The user-visible reply chosen by `confirm_order`. -/
inductive Reply where
  | cartEmpty
  | stockEmpty
  | orderConfirmed
deriving DecidableEq

/-- One appended row of the orders worksheet (the fields that identify the
line and its status; every row is written with status `"preparing"`). -/
structure OrderLine where
  pid : String
  qty : Nat
  status : String
deriving DecidableEq

/-- `confirm_order` relative to the current live store (which is also the
snapshot its `update_stock` call reads, the call being the only writer in
a sequential run): returns `(reply, store after, order rows appended,
session cart after)`. -/
def confirm_order (store : List Row) (cart : List CItem) :
    Reply × List Row × List OrderLine × List CItem :=
  if cart = [] then (Reply.cartEmpty, store, [], [])
  else
    let r := update_stock store cart
    if r.2 then
      (Reply.orderConfirmed, applyWrites store r.1,
        cart.map (fun i => ⟨i.id, i.qty, "preparing"⟩), [])
    else (Reply.stockEmpty, applyWrites store r.1, [], [])

/-!  Discount resolution (`load_discounts`, src/main.py 373-395, and the
validity check in `ask_notes`, lines 723-728): a code is accepted iff it
is a key of the discounts table, its `is_active` flag is true and
`valid_until >= utcnow()`.  Dates are modelled as integers. -/

/-- One row of the discounts worksheet as `load_discounts` returns it. -/
structure DiscountRow where
  percent : Int
  validUntil : Int
  isActive : Bool
deriving DecidableEq

/-- Dict lookup in the discounts table. -/
def lookupDisc (ds : List (String × DiscountRow)) (code : String) : Option DiscountRow :=
  (ds.find? (fun e => e.1 = code)).map (fun e => e.2)

/-- The check of `ask_notes`:
`code in discounts and discounts[code]["is_active"] and
 strptime(valid_until) >= utcnow()`, returning the percentage on
success. -/
def resolveDiscount (ds : List (String × DiscountRow)) (code : String) (now : Int) :
    Option Int :=
  match lookupDisc ds code with
  | none => none
  | some d => if d.isActive ∧ now ≤ d.validUntil then some d.percent else none

/-!  The order conversation (handlers `ask_phone` … `ask_notes`,
src/main.py 669-734, wired linearly in `order_conv`, lines 1271-1284).
The conversation states `ASK_NAME … ASK_NOTES` are `range(6)`; each text
update in state `ASK_k` runs the corresponding handler, which validates,
stores the field and returns the next state.  `ended` stands for
`ConversationHandler.END`. -/

/-- Conversation states (`ASK_NAME, …, ASK_NOTES = range(6)` plus END). -/
inductive OState where
  | askName
  | askPhone
  | askAddress
  | askPostal
  | askDiscount
  | askNotes
  | ended
deriving DecidableEq

/-- The prompt the handler replies with before yielding the next state. -/
inductive Prompt where
  | inputName
  | inputPhone
  | inputAddress
  | inputPostal
  | inputDiscount
  | inputNotes
  | phoneInvalid
  | addressInvalid
  | discountInvalid
  | confirmed
deriving DecidableEq

/-- The session fields the conversation handlers fill in
(`ctx.user_data`); `dest` is `"Perugia"` (local) or `"Italia"` (remote). -/
structure OSess where
  dest : String
  name : String
  phone : String
  address : String
  postal : String
  discountCode : Option String
  notes : String
deriving DecidableEq

/-- Python `str.strip()`: drop whitespace from both ends. -/
def pyStrip (s : String) : String :=
  ⟨((s.data.dropWhile Char.isWhitespace).reverse.dropWhile Char.isWhitespace).reverse⟩

/-- Python `str.startswith(pre)`. -/
def pyStartsWith (s p : String) : Bool :=
  p.data.isPrefixOf s.data

/-- Python `len(s)`. -/
def pyLen (s : String) : Nat := s.data.length

/-- One text update in the order conversation: the handler registered for
the current state runs on the message text.  Transcribed from `ask_phone`,
`ask_address`, `ask_postal`, `ask_discount`, `ask_notes` and
the notes intake of `confirm_order`. -/
def stepConv (ds : List (String × DiscountRow)) (now : Int) :
    OState → OSess → String → OState × OSess × Prompt
  | OState.askName, s, t => (OState.askPhone, { s with name := pyStrip t }, Prompt.inputPhone)
  | OState.askPhone, s, t =>
    let ph := pyStrip t
    if ¬ pyStartsWith ph "+39" ∨ pyLen ph < 10 then (OState.askPhone, s, Prompt.phoneInvalid)
    else (OState.askAddress, { s with phone := ph }, Prompt.inputAddress)
  | OState.askAddress, s, t =>
    let a := pyStrip t
    if pyLen a < 10 then (OState.askAddress, s, Prompt.addressInvalid)
    else (OState.askPostal, { s with address := a }, Prompt.inputPostal)
  | OState.askPostal, s, t =>
    (OState.askDiscount, { s with postal := pyStrip t }, Prompt.inputDiscount)
  | OState.askDiscount, s, t =>
    let code := pyStrip t
    match resolveDiscount ds code now with
    | some _ => (OState.askNotes, { s with discountCode := some code }, Prompt.inputNotes)
    | none => (OState.askDiscount, s, Prompt.discountInvalid)
  | OState.askNotes, s, t => (OState.ended, { s with notes := pyStrip t }, Prompt.confirmed)
  | OState.ended, s, _ => (OState.ended, s, Prompt.confirmed)

/-- The `dec_` branch of the callback router (src/main.py 1046-1054):
find the first cart line whose id matches; if its quantity exceeds 1,
decrement it, otherwise remove that line; nothing else is read or
written. -/
def decCart : List CItem → String → List CItem
  | [], _ => []
  | i :: is, pid =>
    if i.id = pid then
      if 1 < i.qty then { i with qty := i.qty - 1 } :: is else is
    else i :: decCart is pid

/-- The `del_` branch of the callback router (src/main.py 1056-1060):
`cart[:] = [i for i in cart if i["id"] != pid]`. -/
def delCart (cart : List CItem) (pid : String) : List CItem :=
  cart.filter (fun i => i.id ≠ pid)

/-- `cart_total` (src/main.py 429):
`sum(i["qty"] * i["price"] for i in c)`. -/
def cart_total (cart : List CItem) : Int :=
  (cart.map (fun i => (i.qty : Int) * i.price)).sum

/-!  Helper lemmas about the cart-merge algebra. -/

theorem hasId_eq_true {pid : String} {i : CItem} : hasId pid i = true ↔ i.id = pid := by
  simp [hasId]

theorem mergeLine_of_find?_none {cart : List CItem} {pid : String}
    (h : cart.find? (hasId pid) = none) (q : Nat) : mergeLine cart pid q = cart := by
  induction cart with
  | nil => rfl
  | cons i is ih =>
    rw [List.find?_cons] at h
    cases hpi : hasId pid i with
    | true => rw [hpi] at h; exact absurd h (by simp)
    | false =>
      rw [hpi] at h
      rw [mergeLine, if_neg (by simpa [hasId] using hpi), ih h]

theorem find?_mergeLine (cart : List CItem) (pid : String) (q : Nat) :
    (mergeLine cart pid q).find? (hasId pid)
      = (cart.find? (hasId pid)).map (fun i => { i with qty := i.qty + q }) := by
  induction cart with
  | nil => rfl
  | cons i is ih =>
    by_cases hpi : i.id = pid
    · rw [mergeLine, if_pos hpi]
      rw [List.find?_cons, List.find?_cons]
      have h1 : hasId pid i = true := by simp [hasId, hpi]
      have h2 : hasId pid { i with qty := i.qty + q } = true := by simp [hasId, hpi]
      rw [h1, h2]
      rfl
    · rw [mergeLine, if_neg hpi]
      rw [List.find?_cons, List.find?_cons]
      have h1 : hasId pid i = false := by simp [hasId, hpi]
      rw [h1, ih]

theorem mergeLine_mergeLine (cart : List CItem) (pid : String) (q1 q2 : Nat) :
    mergeLine (mergeLine cart pid q1) pid q2 = mergeLine cart pid (q1 + q2) := by
  induction cart with
  | nil => rfl
  | cons i is ih =>
    by_cases hpi : i.id = pid
    · rw [mergeLine, if_pos hpi, mergeLine, if_pos hpi, mergeLine, if_pos hpi]
      simp [Nat.add_assoc]
    · rw [mergeLine, if_neg hpi, mergeLine, if_neg hpi, mergeLine, if_neg hpi, ih]

theorem find?_append_of_none {α : Type} {p : α → Bool} {l1 l2 : List α}
    (h : l1.find? p = none) : (l1 ++ l2).find? p = l2.find? p := by
  induction l1 with
  | nil => rfl
  | cons a l ih =>
    rw [List.find?_cons] at h
    cases hpa : p a with
    | true => rw [hpa] at h; exact absurd h (by simp)
    | false =>
      rw [hpa] at h
      rw [List.cons_append, List.find?_cons, hpa, ih h]

theorem mergeLine_append_of_none {cart : List CItem} {pid : String}
    (h : cart.find? (hasId pid) = none) (p : Product) (q1 q2 : Nat) :
    mergeLine (cart ++ [newItem pid p q1]) pid q2
      = cart ++ [newItem pid p (q1 + q2)] := by
  induction cart with
  | nil => simp [mergeLine, newItem]
  | cons i is ih =>
    rw [List.find?_cons] at h
    cases hpi : hasId pid i with
    | true => rw [hpi] at h; exact absurd h (by simp)
    | false =>
      rw [hpi] at h
      have hne : ¬ i.id = pid := by simpa [hasId] using hpi
      rw [List.cons_append, mergeLine, if_neg hne, ih h, List.cons_append]

theorem curQty_of_find? {cart : List CItem} {pid : String} {i : CItem}
    (h : cart.find? (hasId pid) = some i) : curQty cart pid = i.qty := by
  unfold curQty
  rw [h]

theorem curQty_of_find?_none {cart : List CItem} {pid : String}
    (h : cart.find? (hasId pid) = none) : curQty cart pid = 0 := by
  unfold curQty
  rw [h]

/-- Success branch of `add_cart`, in closed form. -/
theorem add_cart_success (th : Int) {prods : List (String × Product)}
    {cart : List CItem} {pid : String} {qty : Nat} {p : Product}
    (hl : lookupProd prods pid = some p)
    (hs : ¬ p.stock < (curQty cart pid : Int) + (qty : Int)) :
    add_cart th prods cart pid qty =
      (true,
        if (cart.find? (hasId pid)).isSome then mergeLine cart pid qty
        else cart ++ [newItem pid p qty],
        (if p.stock - (qty : Int) ≤ th then [Eff.lowStockAlert pid (p.stock - qty)] else [])
          ++ [Eff.abandonedAppend
              (if (cart.find? (hasId pid)).isSome then mergeLine cart pid qty
               else cart ++ [newItem pid p qty])]) := by
  unfold add_cart
  rw [hl]
  simp only [if_neg hs]

/-- Failure branches of `add_cart`, in closed form. -/
theorem add_cart_fail {th : Int} {prods : List (String × Product)}
    {cart : List CItem} {pid : String} {qty : Nat}
    (h : lookupProd prods pid = none ∨
      ∃ p, lookupProd prods pid = some p ∧ p.stock < (curQty cart pid : Int) + (qty : Int)) :
    add_cart th prods cart pid qty = (false, cart, []) := by
  unfold add_cart
  rcases h with h | ⟨p, hl, hs⟩
  · rw [h]
  · rw [hl]
    simp only [if_pos hs]

/-- C6: for every product `pid` and quantities `q1, q2 ≥ 1` such that both
adds succeed, `add_cart(pid, q1)` followed by `add_cart(pid, q2)` yields
the same cart as a single `add_cart(pid, q1 + q2)`: the second add merges
into the existing line rather than appending a duplicate line. -/
theorem C6_readd_merges_into_line (th : Int) (prods : List (String × Product))
    (cart : List CItem) (pid : String) (q1 q2 : Nat) (hq1 : 1 ≤ q1) (hq2 : 1 ≤ q2)
    (h1 : (add_cart th prods cart pid q1).1 = true)
    (h2 : (add_cart th prods (add_cart th prods cart pid q1).2.1 pid q2).1 = true) :
    (add_cart th prods cart pid (q1 + q2)).1 = true ∧
    (add_cart th prods cart pid (q1 + q2)).2.1
      = (add_cart th prods (add_cart th prods cart pid q1).2.1 pid q2).2.1 := by
  cases hl : lookupProd prods pid with
  | none =>
    rw [add_cart_fail (Or.inl hl)] at h1
    exact absurd h1 (by simp)
  | some p =>
    by_cases hs1 : p.stock < (curQty cart pid : Int) + (q1 : Int)
    · rw [add_cart_fail (Or.inr ⟨p, hl, hs1⟩)] at h1
      exact absurd h1 (by simp)
    · have hA := add_cart_success th hl hs1
      by_cases hf : (cart.find? (hasId pid)).isSome = true
      · obtain ⟨i0, hi0⟩ := Option.isSome_iff_exists.mp hf
        have hcq0 : curQty cart pid = i0.qty := curQty_of_find? hi0
        have hc1 : (add_cart th prods cart pid q1).2.1 = mergeLine cart pid q1 := by
          rw [hA]
          simp only [if_pos hf]
        rw [hc1] at h2
        have hfm : (mergeLine cart pid q1).find? (hasId pid)
            = some { i0 with qty := i0.qty + q1 } := by
          rw [find?_mergeLine, hi0]
          rfl
        have hcq1 : curQty (mergeLine cart pid q1) pid = i0.qty + q1 :=
          curQty_of_find? hfm
        by_cases hs2 : p.stock < (curQty (mergeLine cart pid q1) pid : Int) + (q2 : Int)
        · rw [add_cart_fail (Or.inr ⟨p, hl, hs2⟩)] at h2
          exact absurd h2 (by simp)
        · have hsS : ¬ p.stock < (curQty cart pid : Int) + ((q1 + q2 : Nat) : Int) := by
            rw [hcq1] at hs2
            rw [hcq0]
            push_cast at hs2 ⊢
            omega
          have hS := add_cart_success th hl hsS
          have hB := add_cart_success th hl hs2
          refine ⟨by rw [hS], ?_⟩
          rw [hS, hc1, hB]
          have hfm' : ((mergeLine cart pid q1).find? (hasId pid)).isSome = true := by
            rw [hfm]
            rfl
          simp only [if_pos hf, if_pos hfm']
          exact (mergeLine_mergeLine cart pid q1 q2).symm
      · have hfn : cart.find? (hasId pid) = none := by
          cases hcf : cart.find? (hasId pid) with
          | none => rfl
          | some i =>
            rw [hcf] at hf
            exact absurd rfl hf
        have hcq0 : curQty cart pid = 0 := curQty_of_find?_none hfn
        have hc1 : (add_cart th prods cart pid q1).2.1
            = cart ++ [newItem pid p q1] := by
          rw [hA]
          simp only [if_neg hf]
        rw [hc1] at h2
        have hfa : (cart ++ [newItem pid p q1]).find? (hasId pid)
            = some (newItem pid p q1) := by
          rw [find?_append_of_none hfn]
          simp [List.find?, hasId, newItem]
        have hcq1 : curQty (cart ++ [newItem pid p q1]) pid = q1 :=
          curQty_of_find? hfa
        by_cases hs2 : p.stock <
            (curQty (cart ++ [newItem pid p q1]) pid : Int) + (q2 : Int)
        · rw [add_cart_fail (Or.inr ⟨p, hl, hs2⟩)] at h2
          exact absurd h2 (by simp)
        · have hsS : ¬ p.stock < (curQty cart pid : Int) + ((q1 + q2 : Nat) : Int) := by
            rw [hcq1] at hs2
            rw [hcq0]
            push_cast at hs2 ⊢
            omega
          have hS := add_cart_success th hl hsS
          have hB := add_cart_success th hl hs2
          refine ⟨by rw [hS], ?_⟩
          rw [hS, hc1, hB]
          have hfa' : ((cart ++ [newItem pid p q1]).find? (hasId pid)).isSome = true := by
            rw [hfa]
            rfl
          simp only [if_neg hf, if_pos hfa']
          exact (mergeLine_append_of_none hfn p q1 q2).symm

/-- Witness for C6 at a concrete input: adding 1 then 2 units of `rice`
(stock 10) to an empty cart equals a single add of 3 units. -/
theorem C6_readd_merges_into_line_witness :
    (add_cart (-10) [("rice", ⟨"r", "riso", 600, "1kg", 10⟩)] [] "rice" (1 + 2)).1 = true ∧
    (add_cart (-10) [("rice", ⟨"r", "riso", 600, "1kg", 10⟩)] [] "rice" (1 + 2)).2.1
      = (add_cart (-10) [("rice", ⟨"r", "riso", 600, "1kg", 10⟩)]
          (add_cart (-10) [("rice", ⟨"r", "riso", 600, "1kg", 10⟩)] [] "rice" 1).2.1
          "rice" 2).2.1 :=
  C6_readd_merges_into_line (-10) [("rice", ⟨"r", "riso", 600, "1kg", 10⟩)] [] "rice" 1 2
    (by decide) (by decide) (by decide) (by decide)

/-- C7: whenever the quantity already in the cart for a product plus the
requested quantity exceeds the cached stock, `add_cart` fails
(`STOCK_EMPTY`) and returns with the cart completely unchanged and no
external call made. -/
theorem C7_insufficient_stock_leaves_cart_unchanged (th : Int)
    (prods : List (String × Product)) (cart : List CItem) (pid : String) (qty : Nat)
    (p : Product) (hl : lookupProd prods pid = some p)
    (hs : p.stock < (curQty cart pid : Int) + (qty : Int)) :
    add_cart th prods cart pid qty = (false, cart, []) :=
  add_cart_fail (Or.inr ⟨p, hl, hs⟩)

/-- Witness for C7: the cart already holds 2 units of `rice` (stock 2);
adding one more fails and leaves the cart as it was. -/
theorem C7_insufficient_stock_leaves_cart_unchanged_witness :
    add_cart 3 [("rice", ⟨"r", "riso", 600, "1kg", 2⟩)]
        [⟨"rice", "r", "riso", 600, "1kg", 2⟩] "rice" 1
      = (false, [⟨"rice", "r", "riso", 600, "1kg", 2⟩], []) :=
  C7_insufficient_stock_leaves_cart_unchanged 3 [("rice", ⟨"r", "riso", 600, "1kg", 2⟩)]
    [⟨"rice", "r", "riso", 600, "1kg", 2⟩] "rice" 1 ⟨"r", "riso", 600, "1kg", 2⟩
    (by decide) (by decide)

/-- Counterexample to C8 as stated: a successful `add_cart` is not free of
external side effects — it appends the cart snapshot to the shared
abandoned-carts worksheet (src/main.py 586-595). -/
theorem C8_external_append_counterexample :
    (add_cart 3 [("rice", ⟨"r", "riso", 600, "1kg", 10⟩)] [] "rice" 1).1 = true ∧
    (add_cart 3 [("rice", ⟨"r", "riso", 600, "1kg", 10⟩)] [] "rice" 1).2.2
      = [Eff.abandonedAppend [⟨"rice", "r", "riso", 600, "1kg", 1⟩]] ∧
    (add_cart 3 [("rice", ⟨"r", "riso", 600, "1kg", 10⟩)] [] "rice" 1).2.2 ≠ [] := by
  decide

/-- Membership in the `del_` result: exactly the lines of other
products. -/
theorem delCart_mem (cart : List CItem) (pid : String) (i : CItem) :
    i ∈ delCart cart pid ↔ i ∈ cart ∧ i.id ≠ pid := by
  simp [delCart, List.mem_filter]

/-- The `dec_` branch leaves the lines of every other product exactly as
they were. -/
theorem decCart_frame (cart : List CItem) (pid : String) :
    (decCart cart pid).filter (fun i => i.id ≠ pid)
      = cart.filter (fun i => i.id ≠ pid) := by
  induction cart with
  | nil => rfl
  | cons i is ih =>
    by_cases hpi : i.id = pid
    · rw [decCart, if_pos hpi]
      by_cases hq : 1 < i.qty
      · rw [if_pos hq]
        simp [List.filter_cons, hpi]
      · rw [if_neg hq]
        simp [List.filter_cons, hpi]
    · rw [decCart, if_neg hpi]
      simp only [List.filter_cons, decide_not, decide_eq_true_eq, hpi] at ih ⊢
      simp [hpi, ih]

theorem cart_total_cons (i : CItem) (l : List CItem) :
    cart_total (i :: l) = (i.qty : Int) * i.price + cart_total l := by
  simp [cart_total]

/-- The quoted total is additive over removing one product: the total of
the cart without `pid` plus the total of the `pid` lines is the original
total. -/
theorem cart_total_partition (cart : List CItem) (pid : String) :
    cart_total (delCart cart pid)
      + cart_total (cart.filter (fun i => i.id = pid)) = cart_total cart := by
  induction cart with
  | nil => rfl
  | cons i is ih =>
    by_cases hpi : i.id = pid
    · simp only [delCart, decide_not] at ih ⊢
      simp [List.filter_cons, hpi, cart_total_cons]
      linarith [ih]
    · simp only [delCart, decide_not] at ih ⊢
      simp [List.filter_cons, hpi, cart_total_cons]
      linarith [ih]

/-- C8 (amended): the decrement and remove operations touch only the
session cart and only the lines of the given product — remove keeps
exactly the lines of the other products and decrement leaves the lines of
the other products unchanged — and the quoted total is the pure sum
`qty * price`, additive over the removed product; a failing `add_cart` is
pure (cart unchanged, no external state touched), but a successful
`add_cart` always ends its external-effect trace with an append of the
updated cart to the shared abandoned-carts worksheet (possibly preceded
by a low-stock admin alert). -/
theorem C8_cart_operations_effects (th : Int) (prods : List (String × Product))
    (cart : List CItem) (pid : String) (qty : Nat) :
    (∀ i : CItem, i ∈ delCart cart pid ↔ i ∈ cart ∧ i.id ≠ pid) ∧
    ((decCart cart pid).filter (fun i => i.id ≠ pid)
      = cart.filter (fun i => i.id ≠ pid)) ∧
    (cart_total (delCart cart pid)
      + cart_total (cart.filter (fun i => i.id = pid)) = cart_total cart) ∧
    ((add_cart th prods cart pid qty).1 = false →
      add_cart th prods cart pid qty = (false, cart, [])) ∧
    ((add_cart th prods cart pid qty).1 = true →
      ∃ pre, (add_cart th prods cart pid qty).2.2
        = pre ++ [Eff.abandonedAppend (add_cart th prods cart pid qty).2.1]) := by
  have hadd : ((add_cart th prods cart pid qty).1 = false →
      add_cart th prods cart pid qty = (false, cart, [])) ∧
      ((add_cart th prods cart pid qty).1 = true →
        ∃ pre, (add_cart th prods cart pid qty).2.2
          = pre ++ [Eff.abandonedAppend (add_cart th prods cart pid qty).2.1]) := by
    cases hl : lookupProd prods pid with
    | none =>
      rw [add_cart_fail (Or.inl hl)]
      exact ⟨fun _ => rfl, fun hc => absurd hc (by simp)⟩
    | some p =>
      by_cases hs : p.stock < (curQty cart pid : Int) + (qty : Int)
      · rw [add_cart_fail (Or.inr ⟨p, hl, hs⟩)]
        exact ⟨fun _ => rfl, fun hc => absurd hc (by simp)⟩
      · rw [add_cart_success th hl hs]
        exact ⟨fun hc => absurd hc (by simp), fun _ => ⟨_, rfl⟩⟩
  exact ⟨delCart_mem cart pid, decCart_frame cart pid, cart_total_partition cart pid,
    hadd.1, hadd.2⟩

/-- Witness for C8 (amended): a failing add leaves everything unchanged; a
succeeding add ends its effect trace with the abandoned-cart append. -/
theorem C8_cart_operations_effects_witness :
    add_cart 3 [("rice", ⟨"r", "riso", 600, "1kg", 1⟩)] [] "rice" 2 = (false, [], []) ∧
    ∃ pre, (add_cart 3 [("rice", ⟨"r", "riso", 600, "1kg", 5⟩)] [] "rice" 1).2.2
      = pre ++ [Eff.abandonedAppend
          (add_cart 3 [("rice", ⟨"r", "riso", 600, "1kg", 5⟩)] [] "rice" 1).2.1] :=
  ⟨(C8_cart_operations_effects 3 [("rice", ⟨"r", "riso", 600, "1kg", 1⟩)]
      [] "rice" 2).2.2.2.1 (by decide),
   (C8_cart_operations_effects 3 [("rice", ⟨"r", "riso", 600, "1kg", 5⟩)]
      [] "rice" 1).2.2.2.2 (by decide)⟩

/-!  Helper lemmas for the stock-commit safety properties. -/

theorem scanLine_writes_nonneg (records : List Row) (pid : String) (qty : Nat) :
    ∀ (idx : Nat) (w : Nat × Int), w ∈ (scanLine records idx pid qty).1 → 0 ≤ w.2 := by
  induction records with
  | nil =>
    intro idx w hw
    simp [scanLine] at hw
  | cons r rs ih =>
    intro idx w hw
    by_cases hr : r.id = pid
    · by_cases hn : r.stock - (qty : Int) < 0
      · simp [scanLine, hr, hn] at hw
      · simp only [scanLine, if_pos hr, if_neg hn, List.mem_cons] at hw
        rcases hw with h | h
        · rw [h]
          omega
        · exact ih (idx + 1) w h
    · simp only [scanLine, if_neg hr] at hw
      exact ih (idx + 1) w hw

theorem scanLine_all_matches_fail (records : List Row) (pid : String) (qty : Nat)
    (hex : ∃ r ∈ records, r.id = pid)
    (hall : ∀ r ∈ records, r.id = pid → r.stock - (qty : Int) < 0) :
    ∀ idx : Nat, scanLine records idx pid qty = ([], false) := by
  induction records with
  | nil =>
    rcases hex with ⟨r, hr, _⟩
    exact absurd hr (by simp)
  | cons r rs ih =>
    intro idx
    by_cases hr : r.id = pid
    · have hneg : r.stock - (qty : Int) < 0 := hall r (by simp) hr
      simp [scanLine, hr, hneg]
    · have hex' : ∃ r ∈ rs, r.id = pid := by
        rcases hex with ⟨r', hr', hid⟩
        rcases List.mem_cons.mp hr' with h | h
        · rw [h] at hid
          exact absurd hid hr
        · exact ⟨r', h, hid⟩
      have hall' : ∀ r ∈ rs, r.id = pid → r.stock - (qty : Int) < 0 :=
        fun r' hr' hid => hall r' (List.mem_cons_of_mem r hr') hid
      simp only [scanLine, if_neg hr]
      exact ih hex' hall' (idx + 1)

/-- C10: the stock commit never writes a negative value, to the worksheet
or to the cache: every `(row, value)` write it emits has `value ≥ 0`; and
whenever every record matching the product of a cart line has
`stock - qty < 0`, the commit on a cart starting with that line checks the
subtraction before writing, returns failure and performs no write at
all. -/
theorem C10_no_negative_stock_written (records : List Row) (cart : List CItem) :
    (∀ w ∈ (update_stock records cart).1, 0 ≤ w.2) ∧
    (∀ (it : CItem) (rest : List CItem),
      (∃ r ∈ records, r.id = it.id) →
      (∀ r ∈ records, r.id = it.id → r.stock - (it.qty : Int) < 0) →
      update_stock records (it :: rest) = ([], false)) := by
  constructor
  · induction cart with
    | nil =>
      intro w hw
      simp [update_stock] at hw
    | cons it rest ih =>
      intro w hw
      by_cases hok : (scanLine records 2 it.id it.qty).2
      · simp only [update_stock, if_pos hok, List.mem_append] at hw
        rcases hw with h | h
        · exact scanLine_writes_nonneg records it.id it.qty 2 w h
        · exact ih w h
      · simp only [update_stock, if_neg hok] at hw
        exact scanLine_writes_nonneg records it.id it.qty 2 w hw
  · intro it rest hex hall
    have hsc := scanLine_all_matches_fail records it.id it.qty hex hall 2
    simp [update_stock, hsc]

/-- Witness for C10: with a single row `X ↦ 3`, committing one unit writes
the non-negative value 2, while committing five units fails without
writing. -/
theorem C10_no_negative_stock_written_witness :
    (0 : Int) ≤ ((2 : Nat), (2 : Int)).2 ∧
    update_stock [⟨"X", 3⟩] [xItem 5] = ([], false) :=
  ⟨(C10_no_negative_stock_written [⟨"X", 3⟩] [xItem 1]).1 (2, 2) (by decide),
   (C10_no_negative_stock_written [⟨"X", 3⟩] []).2 (xItem 5) [] (by decide) (by decide)⟩

/-- C9: a discount code is rejected exactly when it is unknown, its active
flag is false, or its valid-until date is before now; a valid code
resolves to the same percentage whenever it resolves; after its
valid-until date resolution deterministically fails; and an invalid code
in the discount step re-prompts that step (state and session unchanged)
instead of aborting the conversation. -/
theorem C9_discount_resolution (ds : List (String × DiscountRow)) (code : String) :
    (∀ now : Int, resolveDiscount ds code now = none ↔
      (lookupDisc ds code = none ∨
        ∃ d, lookupDisc ds code = some d ∧ (d.isActive = false ∨ d.validUntil < now))) ∧
    (∀ n1 n2 p1 p2, resolveDiscount ds code n1 = some p1 →
      resolveDiscount ds code n2 = some p2 → p1 = p2) ∧
    (∀ (now : Int) (d : DiscountRow), lookupDisc ds code = some d → d.validUntil < now →
      resolveDiscount ds code now = none) ∧
    (∀ (now : Int) (s : OSess) (t : String), resolveDiscount ds (pyStrip t) now = none →
      stepConv ds now OState.askDiscount s t
        = (OState.askDiscount, s, Prompt.discountInvalid)) := by
  refine ⟨fun now => ?_, fun n1 n2 p1 p2 h1 h2 => ?_, fun now d hd hv => ?_,
    fun now s t h => ?_⟩
  · cases h : lookupDisc ds code with
    | none => simp [resolveDiscount, h]
    | some d =>
      simp only [resolveDiscount, h]
      by_cases hc : d.isActive = true ∧ now ≤ d.validUntil
      · rw [if_pos hc]
        simp only [reduceCtorEq, Option.some.injEq, false_iff]
        rintro (h' | ⟨d', hd', h'⟩)
        · exact absurd h' (by simp)
        · subst hd'
          rcases h' with h' | h'
          · rw [hc.1] at h'
            exact absurd h' (by simp)
          · omega
      · rw [if_neg hc]
        simp only [true_iff]
        refine Or.inr ⟨d, rfl, ?_⟩
        by_cases ha : d.isActive = true
        · refine Or.inr ?_
          by_cases hvu : now ≤ d.validUntil
          · exact absurd ⟨ha, hvu⟩ hc
          · omega
        · exact Or.inl (by simpa using ha)
  · cases h : lookupDisc ds code with
    | none => simp [resolveDiscount, h] at h1
    | some d =>
      simp only [resolveDiscount, h] at h1 h2
      by_cases hc1 : d.isActive = true ∧ n1 ≤ d.validUntil
      · by_cases hc2 : d.isActive = true ∧ n2 ≤ d.validUntil
        · rw [if_pos hc1] at h1
          rw [if_pos hc2] at h2
          rw [Option.some_inj] at h1 h2
          rw [← h1, ← h2]
        · rw [if_neg hc2] at h2
          exact absurd h2 (by simp)
      · rw [if_neg hc1] at h1
        exact absurd h1 (by simp)
  · simp only [resolveDiscount, hd]
    rw [if_neg]
    rintro ⟨_, hle⟩
    omega
  · simp only [stepConv, h]

/-- Witness for C9: with the table holding `W10 = 10 % until day 100`, the
code no longer resolves at day 200, and entering an unknown code at the
discount step re-prompts the discount step. -/
theorem C9_discount_resolution_witness :
    resolveDiscount [("W10", ⟨10, 100, true⟩)] "W10" 200 = none ∧
    stepConv [("W10", ⟨10, 100, true⟩)] 200 OState.askDiscount
        ⟨"Perugia", "", "", "", "", none, ""⟩ "BAD"
      = (OState.askDiscount, ⟨"Perugia", "", "", "", "", none, ""⟩,
          Prompt.discountInvalid) :=
  ⟨(C9_discount_resolution [("W10", ⟨10, 100, true⟩)] "W10").2.2.1 200 ⟨10, 100, true⟩
      (by decide) (by decide),
   (C9_discount_resolution [("W10", ⟨10, 100, true⟩)] "W10").2.2.2 200
      ⟨"Perugia", "", "", "", "", none, ""⟩ "BAD" (by decide)⟩

/-- Counterexample to C5 as stated: a session whose destination is LOCAL
(`"Perugia"`) entering a valid address is moved to the postal-code state
and prompted for a postal code — it is not advanced directly to the
discount step. -/
theorem C5_local_postal_not_skipped_counterexample :
    stepConv [] 0 OState.askAddress ⟨"Perugia", "", "", "", "", none, ""⟩ "Via Roma 10, PG"
      = (OState.askPostal, ⟨"Perugia", "", "", "Via Roma 10, PG", "", none, ""⟩,
          Prompt.inputPostal) ∧
    OState.askPostal ≠ OState.askDiscount ∧ Prompt.inputPostal ≠ Prompt.inputDiscount := by
  decide

/-- C5 (amended): the postal step is never skipped: for every destination
(LOCAL `"Perugia"` included), a valid address moves the conversation to
the postal state with the postal prompt, and the postal state stores
whatever text arrives before moving on to the discount step. -/
theorem C5_postal_step_for_all_destinations (ds : List (String × DiscountRow)) (now : Int)
    (s : OSess) (t : String) (h : ¬ pyLen (pyStrip t) < 10) :
    stepConv ds now OState.askAddress s t
      = (OState.askPostal, { s with address := pyStrip t }, Prompt.inputPostal) ∧
    (∀ u : String, stepConv ds now OState.askPostal s u
      = (OState.askDiscount, { s with postal := pyStrip u }, Prompt.inputDiscount)) := by
  constructor
  · simp only [stepConv, if_neg h]
  · intro u
    simp only [stepConv]

/-- Witness for C5 (amended) at a concrete REMOTE session and address. -/
theorem C5_postal_step_for_all_destinations_witness :
    ¬ pyLen (pyStrip "Via Roma 10, PG") < 10 ∧
    stepConv [] 0 OState.askAddress ⟨"Italia", "", "", "", "", none, ""⟩ "Via Roma 10, PG"
      = (OState.askPostal, ⟨"Italia", "", "", "Via Roma 10, PG", "", none, ""⟩,
          Prompt.inputPostal) :=
  ⟨by decide,
   (C5_postal_step_for_all_destinations [] 0 ⟨"Italia", "", "", "", "", none, ""⟩
      "Via Roma 10, PG" (by decide)).1⟩

/-- C2: the code contradicts the claim at this input.  With stock `B ↦ 0`
and cart `[B:1]`, `update_stock` fails, and `confirm_order` replies with
the generic `STOCK_EMPTY` message and clears the whole `user_data`: the
session cart afterwards is `[]`, not the preserved cart the spec
requires (src/main.py 748-751). -/
theorem C2_cart_cleared_on_stock_conflict :
    confirm_order [⟨"B", 0⟩] [⟨"B", "b", "b", 100, "1kg", 1⟩]
      = (Reply.stockEmpty, [⟨"B", 0⟩], [], []) ∧
    ([] : List CItem) ≠ [⟨"B", "b", "b", 100, "1kg", 1⟩] := by
  decide

/-- Counterexample to C4 as stated: cart `[A:2, B:1]` with stock
`A ↦ 2, B ↦ 0`.  The decrement of A persists (stock 0), but no order is
recorded at all — no `PARTIAL_FAILURE` row, no per-item report — and the
user gets the one generic out-of-stock reply. -/
theorem C4_no_failure_order_row_counterexample :
    confirm_order [⟨"A", 2⟩, ⟨"B", 0⟩]
        [⟨"A", "a", "a", 100, "1kg", 2⟩, ⟨"B", "b", "b", 100, "1kg", 1⟩]
      = (Reply.stockEmpty, [⟨"A", 0⟩, ⟨"B", 0⟩], [], []) ∧
    ¬ ∃ ol ∈ (confirm_order [⟨"A", 2⟩, ⟨"B", 0⟩]
        [⟨"A", "a", "a", 100, "1kg", 2⟩, ⟨"B", "b", "b", 100, "1kg", 1⟩]).2.2.1,
      ol.status = "PARTIAL_FAILURE" := by
  decide

/-- C4 (amended): when a cart line fails at commit, the stock decrements
of the earlier lines are kept (the writes already made stay applied to the
store, unreversed), but no order is recorded at all: `confirm_order`
appends no order rows, replies with the generic out-of-stock message and
clears the cart. -/
theorem C4_failed_commit_keeps_writes_records_nothing (store : List Row)
    (cart : List CItem) (hne : cart ≠ [])
    (hf : (update_stock store cart).2 = false) :
    confirm_order store cart
      = (Reply.stockEmpty, applyWrites store (update_stock store cart).1, [], []) := by
  unfold confirm_order
  rw [if_neg hne]
  simp only [hf, Bool.false_eq_true, if_false]

/-- Witness for C4 (amended): one line requesting 2 units of stock 1. -/
theorem C4_failed_commit_keeps_writes_records_nothing_witness :
    ([⟨"A", "a", "a", 100, "1kg", 2⟩] : List CItem) ≠ [] ∧
    (update_stock [⟨"A", 1⟩] [⟨"A", "a", "a", 100, "1kg", 2⟩]).2 = false ∧
    confirm_order [⟨"A", 1⟩] [⟨"A", "a", "a", 100, "1kg", 2⟩]
      = (Reply.stockEmpty,
          applyWrites [⟨"A", 1⟩]
            (update_stock [⟨"A", 1⟩] [⟨"A", "a", "a", 100, "1kg", 2⟩]).1,
          [], []) :=
  ⟨by decide, by decide,
   C4_failed_commit_keeps_writes_records_nothing [⟨"A", 1⟩]
     [⟨"A", "a", "a", 100, "1kg", 2⟩] (by decide) (by decide)⟩

/-!  Helper lemmas for the concurrency claims. -/

/-- `update_stock` on a one-row snapshot and a one-line cart for `"X"`:
one unconditional write of `snapshot - qty`, or a plain failure. -/
theorem update_stock_single (st : Int) (q : Nat) :
    update_stock [⟨"X", st⟩] [xItem q]
      = if st - (q : Int) < 0 then ([], false) else ([(2, st - q)], true) := by
  by_cases hn : st - (q : Int) < 0
  · simp [update_stock, scanLine, xItem, hn]
  · simp [update_stock, scanLine, xItem, hn]

/-- Unfolding of the fully serialized two-session schedule. -/
theorem runSched_serial2 (store : List Row) (c1 c2 : List CItem) :
    runSched store [mkSess c1, mkSess c2]
        [(0, Op.read), (0, Op.write), (1, Op.read), (1, Op.write)]
      = (applyWrites (applyWrites store (update_stock store c1).1)
            (update_stock (applyWrites store (update_stock store c1).1) c2).1,
         [⟨c1, some store, some (update_stock store c1).2⟩,
          ⟨c2, some (applyWrites store (update_stock store c1).1),
            some (update_stock (applyWrites store (update_stock store c1).1) c2).2⟩]) :=
  rfl

/-- Counterexample to C1 as stated: two sessions each committing the last
unit of `X` (stock 1) under the interleaving where both read before
either writes: both commits succeed, 2 units are decremented against a
stock of 1, and neither session receives a stock-conflict failure. -/
theorem C1_interleaved_oversell_counterexample :
    (runSched [⟨"X", 1⟩] [mkSess [xItem 1], mkSess [xItem 1]]
        [(0, Op.read), (1, Op.read), (0, Op.write), (1, Op.write)]).2.map (fun s => s.res)
      = [some true, some true] ∧
    committedQty (runSched [⟨"X", 1⟩] [mkSess [xItem 1], mkSess [xItem 1]]
        [(0, Op.read), (1, Op.read), (0, Op.write), (1, Op.write)]).2 = 2 ∧
    1 < committedQty (runSched [⟨"X", 1⟩] [mkSess [xItem 1], mkSess [xItem 1]]
        [(0, Op.read), (1, Op.read), (0, Op.write), (1, Op.write)]).2 := by
  decide

/-- C1 (amended): the no-oversell bound holds only for serialized commits.
If each of two sessions reads the store only after the writes of the
other have landed, the total committed quantity never exceeds the initial
stock `S ≥ 0`; and in the serialized stock-1 race exactly one commit
succeeds — the first session ends with result `true`, the second with the
plain boolean `false` (no structured conflict error exists in the code) —
with exactly 1 unit committed.  The counterexample shows the bound fails
once both sessions read before either writes. -/
theorem C1_serial_commits_no_oversell (S : Int) (q1 q2 : Nat) (hS : 0 ≤ S) :
    (committedQty (runSched [⟨"X", S⟩] [mkSess [xItem q1], mkSess [xItem q2]]
        [(0, Op.read), (0, Op.write), (1, Op.read), (1, Op.write)]).2 : Int) ≤ S ∧
    ((runSched [⟨"X", 1⟩] [mkSess [xItem 1], mkSess [xItem 1]]
        [(0, Op.read), (0, Op.write), (1, Op.read), (1, Op.write)]).2.map (fun s => s.res)
      = [some true, some false] ∧
     committedQty (runSched [⟨"X", 1⟩] [mkSess [xItem 1], mkSess [xItem 1]]
        [(0, Op.read), (0, Op.write), (1, Op.read), (1, Op.write)]).2 = 1) := by
  refine ⟨?_, by decide, by decide⟩
  rw [runSched_serial2, update_stock_single]
  by_cases h1 : S - (q1 : Int) < 0
  · rw [if_pos h1]
    simp only [applyWrites]
    rw [update_stock_single]
    by_cases h2 : S - (q2 : Int) < 0
    · rw [if_pos h2]
      simp [committedQty, xItem]
      omega
    · rw [if_neg h2]
      simp [committedQty, xItem]
      omega
  · rw [if_neg h1]
    simp only [applyWrites, setStock]
    rw [update_stock_single]
    by_cases h2 : S - (q1 : Int) - (q2 : Int) < 0
    · rw [if_pos h2]
      simp [committedQty, xItem]
      omega
    · rw [if_neg h2]
      simp [committedQty, xItem]
      omega

/-- Witness for C1 (amended): the serialized race on the last unit
(`S = 1`, both sessions requesting 1): the bound holds and exactly one
commit succeeds. -/
theorem C1_serial_commits_no_oversell_witness :
    (0 : Int) ≤ 1 ∧
    ((committedQty (runSched [⟨"X", 1⟩] [mkSess [xItem 1], mkSess [xItem 1]]
        [(0, Op.read), (0, Op.write), (1, Op.read), (1, Op.write)]).2 : Int) ≤ 1 ∧
     ((runSched [⟨"X", 1⟩] [mkSess [xItem 1], mkSess [xItem 1]]
        [(0, Op.read), (0, Op.write), (1, Op.read), (1, Op.write)]).2.map (fun s => s.res)
       = [some true, some false] ∧
      committedQty (runSched [⟨"X", 1⟩] [mkSess [xItem 1], mkSess [xItem 1]]
        [(0, Op.read), (0, Op.write), (1, Op.read), (1, Op.write)]).2 = 1)) :=
  ⟨by decide, C1_serial_commits_no_oversell 1 1 1 (by decide)⟩

/-- Counterexample to C3 as stated: with stock `X ↦ 5`, session 0
(committing 2 units) takes its snapshot; session 1 then commits 4 units,
so the live cell becomes 1 — different from the snapshot value 5 that
session 0 read.  The write of session 0 nevertheless succeeds and stores
`5 - 2 = 3`: the write
is not conditional on the cell being unchanged, and no retry or
stock-conflict error ever occurs. -/
theorem C3_unconditional_write_counterexample :
    (runSched [⟨"X", 5⟩] [mkSess [xItem 2], mkSess [xItem 4]]
        [(0, Op.read), (1, Op.read), (1, Op.write)]).1 = [⟨"X", 1⟩] ∧
    (runSched [⟨"X", 5⟩] [mkSess [xItem 2], mkSess [xItem 4]]
        [(0, Op.read), (1, Op.read), (1, Op.write)]).2.map (fun s => s.snap)
      = [some [⟨"X", 5⟩], some [⟨"X", 5⟩]] ∧
    (runSched [⟨"X", 5⟩] [mkSess [xItem 2], mkSess [xItem 4]]
        [(0, Op.read), (1, Op.read), (1, Op.write), (0, Op.write)]).1 = [⟨"X", 3⟩] ∧
    (runSched [⟨"X", 5⟩] [mkSess [xItem 2], mkSess [xItem 4]]
        [(0, Op.read), (1, Op.read), (1, Op.write), (0, Op.write)]).2.map (fun s => s.res)
      = [some true, some true] := by
  decide

/-- C3 (amended): the commit performs a single read of the store and then
unconditional writes: what a session writes is a function of its snapshot
alone (identical for any two live stores), and for a single-line cart on a
single-row snapshot the whole commit is exactly one write of
`snapshot - qty` — or a plain failure when that is negative — with no
re-read, no retry, no backoff and no structured conflict error. -/
theorem C3_single_read_unconditional_write :
    (∀ (store store' : List Row) (s : Sess),
      stepSess store s Op.write = stepSess store' s Op.write) ∧
    (∀ (st : Int) (q : Nat),
      update_stock [⟨"X", st⟩] [xItem q]
        = if st - (q : Int) < 0 then ([], false) else ([(2, st - q)], true)) :=
  ⟨fun _ _ _ => rfl, update_stock_single⟩

end Bazarino
